import Mathlib

/-!
Shallow embedding of the rocket-pool subgraph minipool-manager mappings
(`src/mappings/rocketMinipoolManager.ts`).

Modelling conventions:
* graph-ts `BigInt` (arbitrary-precision signed integer) is `Int`;
  `BigInt.div` is truncating division toward zero, `Int.tdiv`.
* Chain addresses / entity ids (`address.toHexString()`) are `String`.
* Nullable schema fields (`Node.minipoolIds`, `Minipool.node`) are `Option`.
* The entity store is a pair of keyed maps `String → Option Minipool` /
  `String → Option Node`; `save` writes under the entity's `id` field,
  as the generated store code does.
* A non-`try_` contract call that reverts aborts the whole handler
  invocation and none of its writes are committed; contract reads are
  therefore `Except Unit Int` and a handler is `Store → Except Unit Store`,
  returning `.error` (no store at all) when a reached read fails.
* Defensive null checks on event/call objects themselves
  (`event === null`, `event.params === null`, ...) are unrepresentable
  here: the event structures below are non-nullable, so those guards
  always pass and are dropped.
-/

/-- The `Minipool` entity of the schema: one staking sub-unit.
`node` is the nullable foreign key to the owning node. -/
structure Minipool where
  id : String
  node : Option String
  fee : Int
  finalizedBlockTime : Int
  destroyedBlockTime : Int
  deriving Repr, DecidableEq

/-- The `Node` entity of the schema: one protocol operator. -/
structure Node where
  id : String
  minipoolIds : Option (List String)
  totalFinalizedMinipools : Int
  withdrawableMinipools : Int
  effectiveRPLStaked : Int
  minimumEffectiveRPL : Int
  maximumEffectiveRPL : Int
  averageFeeForActiveMinipools : Int
  deriving Repr, DecidableEq

/-- The entity store plus the set of minipool addresses registered for
event subscription (`rocketMinipoolDelegate.create`). -/
structure Store where
  minipools : String → Option Minipool
  nodes : String → Option Node
  subscriptions : List String

/-- `minipool.save()`: store the entity under its own `id`. -/
def Store.setMinipool (s : Store) (m : Minipool) : Store :=
  { s with minipools := fun i => if i = m.id then some m else s.minipools i }

/-- `node.save()`: store the entity under its own `id`. -/
def Store.setNode (s : Store) (n : Node) : Store :=
  { s with nodes := fun i => if i = n.id then some n else s.nodes i }

/-- `rocketMinipoolDelegate.create(address)`: register a minipool address
for future event subscription. -/
def Store.subscribe (s : Store) (a : String) : Store :=
  { s with subscriptions := s.subscriptions ++ [a] }

/-- The loop of `getAverageFeeForActiveMinipools` (source lines 178-200):
accumulates `(totalMinipoolFeeForActiveMinipools, totalActiveMinipools)`
over the id list, skipping ids that fail to load or whose minipool has a
nonzero `finalizedBlockTime` or `destroyedBlockTime`. -/
def averageFeeLoop (load : String → Option Minipool) :
    List String → Int → Int → Int × Int
  | [], totalFee, totalActive => (totalFee, totalActive)
  | minipoolId :: rest, totalFee, totalActive =>
    match load minipoolId with
    | none => averageFeeLoop load rest totalFee totalActive
    | some minipool =>
      if minipool.finalizedBlockTime ≠ 0 ∨ minipool.destroyedBlockTime ≠ 0 then
        averageFeeLoop load rest totalFee totalActive
      else
        averageFeeLoop load rest (totalFee + minipool.fee) (totalActive + 1)

/-- `getAverageFeeForActiveMinipools` (source lines 169-210): average fee
over active minipools, truncating division, `0` when the list is empty or
the surviving count or sum is not positive. -/
def getAverageFeeForActiveMinipools (load : String → Option Minipool)
    (minipoolIds : List String) : Int :=
  if minipoolIds.length = 0 then 0
  else
    let acc := averageFeeLoop load minipoolIds 0 0
    if 0 < acc.2 ∧ 0 < acc.1 then Int.tdiv acc.1 acc.2 else 0

/-- Spec-side helper: the fee a given id contributes to the average, if
its minipool loads and has both block-time sentinels zero. -/
def specActiveFeeOf (load : String → Option Minipool) (minipoolId : String) :
    Option Int :=
  match load minipoolId with
  | none => none
  | some m =>
    if m.finalizedBlockTime = 0 ∧ m.destroyedBlockTime = 0 then some m.fee
    else none

/-- Spec-side: the fees of exactly those ids whose minipool loads
successfully and is active. -/
def specActiveFees (load : String → Option Minipool)
    (minipoolIds : List String) : List Int :=
  minipoolIds.filterMap (specActiveFeeOf load)

/-- Spec-side restatement of the average (C1's wording): the truncating
quotient of the surviving fee sum by the surviving count when both are
positive, otherwise `0`. -/
def specAverageFeeForActiveMinipools (load : String → Option Minipool)
    (minipoolIds : List String) : Int :=
  let fees := specActiveFees load minipoolIds
  if 0 < fees.length ∧ 0 < fees.sum then Int.tdiv fees.sum (fees.length : Int)
  else 0

/-- The external contract-read collaborator: the network-fee read
(`rocketNetworkFees.getNodeFee`) and the three node-staking reads
(`rocketNodeStaking.getNode{Effective,Minimum,Maximum}RPLStake`),
each of which may revert (`.error ()`). -/
structure ContractReader where
  getNodeFee : Except Unit Int
  getNodeEffectiveRPLStake : String → Except Unit Int
  getNodeMinimumRPLStake : String → Except Unit Int
  getNodeMaximumRPLStake : String → Except Unit Int

/-- `getNewMinipoolFee` (source lines 143-149). The `bind` result of a
generated contract class is never null, so the guarded `return 0` branch
is dead and the function is exactly the `getNodeFee` read. -/
def getNewMinipoolFee (reader : ContractReader) : Except Unit Int :=
  reader.getNodeFee

/-- `setEffectiveRPLStaked` (source lines 154-164): three stake reads
keyed by the node's address, overwriting the node's three stake fields;
a reverting read aborts. The null check on the bound contract is dead
as in `getNewMinipoolFee`. -/
def setEffectiveRPLStaked (reader : ContractReader) (node : Node) :
    Except Unit Node :=
  match reader.getNodeEffectiveRPLStake node.id with
  | .error e => .error e
  | .ok effectiveStake =>
    match reader.getNodeMinimumRPLStake node.id with
    | .error e => .error e
    | .ok minimumStake =>
      match reader.getNodeMaximumRPLStake node.id with
      | .error e => .error e
      | .ok maximumStake =>
        .ok { node with
                effectiveRPLStaked := effectiveStake,
                minimumEffectiveRPL := minimumStake,
                maximumEffectiveRPL := maximumStake }

/-- Modelled from the spec: `rocketPoolEntityFactory.createMinipool`
(the entity factory file is not part of the sources here) — "Create the
Minipool entity with that fee, owner link, and zero sentinels for
destroyed/finalized". -/
def createMinipool (minipoolId : String) (nodeId : String) (fee : Int) :
    Minipool :=
  { id := minipoolId
    node := some nodeId
    fee := fee
    finalizedBlockTime := 0
    destroyedBlockTime := 0 }

/-- The `MinipoolCreated` event parameters. -/
structure MinipoolCreatedEvent where
  node : String
  minipool : String

/-- The `MinipoolDestroyed` event parameters plus block context. -/
structure MinipoolDestroyedEvent where
  node : String
  minipool : String
  blockTimestamp : Int

/-- The `IncrementNodeFinalisedMinipoolCount` call context. -/
structure IncrementNodeFinalisedMinipoolCountCall where
  fromAddress : String
  blockTimestamp : Int

/-- Source lines 43-46: a null `minipoolIds` becomes the singleton list,
otherwise the id is pushed unless already present (`indexOf == -1`). -/
def appendMinipoolId (ids : Option (List String)) (minipoolId : String) :
    List String :=
  match ids with
  | none => [minipoolId]
  | some l => if minipoolId ∈ l then l else l ++ [minipoolId]

/-- `handleMinipoolCreated` (source lines 17-62). -/
def handleMinipoolCreated (reader : ContractReader)
    (event : MinipoolCreatedEvent) (s : Store) : Except Unit Store :=
  -- There can't be an existing minipool with the same address.
  match s.minipools event.minipool with
  | some _ => .ok s
  | none =>
    -- Retrieve the parent node. It has to exist.
    match s.nodes event.node with
    | none => .ok s
    | some node =>
      match getNewMinipoolFee reader with
      | .error e => .error e
      | .ok fee =>
        let minipool := createMinipool event.minipool node.id fee
        -- Add this minipool to the collection of the node.
        let nodeMinipools := appendMinipoolId node.minipoolIds minipool.id
        -- Index the minipool.
        let s1 := s.setMinipool minipool
        match setEffectiveRPLStaked reader
            { node with minipoolIds := some nodeMinipools } with
        | .error e => .error e
        | .ok node1 =>
          let node2 := { node1 with
            averageFeeForActiveMinipools :=
              getAverageFeeForActiveMinipools s1.minipools nodeMinipools }
          -- Index the changes to the associated node, then create the
          -- delegate subscription.
          .ok ((s1.setNode node2).subscribe minipool.id)

/-- `handleMinipoolDestroyed` (source lines 67-96). -/
def handleMinipoolDestroyed (reader : ContractReader)
    (event : MinipoolDestroyedEvent) (s : Store) : Except Unit Store :=
  -- There must be an indexed minipool.
  match s.minipools event.minipool with
  | none => .ok s
  | some minipool =>
    -- Retrieve the parent node. It has to exist.
    match s.nodes event.node with
    | none => .ok s
    | some node =>
      let minipoolIds := node.minipoolIds
      -- Update the minipool so it will contain its destroyed state,
      -- then index it.
      let minipool1 := { minipool with destroyedBlockTime := event.blockTimestamp }
      let s1 := s.setMinipool minipool1
      match setEffectiveRPLStaked reader node with
      | .error e => .error e
      | .ok node1 =>
        let node2 :=
          match minipoolIds with
          | none => node1
          | some ids => { node1 with
              averageFeeForActiveMinipools :=
                getAverageFeeForActiveMinipools s1.minipools ids }
        .ok (s1.setNode node2)

/-- `handleIncrementNodeFinalisedMinipoolCount` (source lines 102-138). -/
def handleIncrementNodeFinalisedMinipoolCount (reader : ContractReader)
    (call : IncrementNodeFinalisedMinipoolCountCall) (s : Store) :
    Except Unit Store :=
  -- Calling address should be a minipool with a valid link to a node.
  match s.minipools call.fromAddress with
  | none => .ok s
  | some minipool =>
    match minipool.node with
    | none => .ok s
    | some nodeId =>
      -- Retrieve the parent node. It has to exist.
      match s.nodes nodeId with
      | none => .ok s
      | some node =>
        let minipoolIds := node.minipoolIds
        -- Update the finalized block time, then index the minipool.
        let minipool1 := { minipool with finalizedBlockTime := call.blockTimestamp }
        let s1 := s.setMinipool minipool1
        -- Update node state.
        let total1 := node.totalFinalizedMinipools + 1
        let withdrawable0 := total1 - 1
        let withdrawable1 := if withdrawable0 < 0 then 0 else withdrawable0
        let node1 := { node with
          totalFinalizedMinipools := total1,
          withdrawableMinipools := withdrawable1 }
        match setEffectiveRPLStaked reader node1 with
        | .error e => .error e
        | .ok node2 =>
          let node3 :=
            match minipoolIds with
            | none => node2
            | some ids => { node2 with
                averageFeeForActiveMinipools :=
                  getAverageFeeForActiveMinipools s1.minipools ids }
          .ok (s1.setNode node3)

/-- A routed invocation: one of the three handlers with its input. -/
inductive HandlerEvent where
  | created (event : MinipoolCreatedEvent)
  | destroyed (event : MinipoolDestroyedEvent)
  | finalised (call : IncrementNodeFinalisedMinipoolCountCall)

/-- The event router: dispatch one invocation to its handler. -/
def runHandler (reader : ContractReader) :
    HandlerEvent → Store → Except Unit Store
  | .created event => handleMinipoolCreated reader event
  | .destroyed event => handleMinipoolDestroyed reader event
  | .finalised call => handleIncrementNodeFinalisedMinipoolCount reader call

/-- One invocation at the store level: a failed handler commits nothing. -/
def runStep (reader : ContractReader) (e : HandlerEvent) (s : Store) : Store :=
  match runHandler reader e s with
  | .ok s1 => s1
  | .error _ => s

/-- A sequence of invocations, in delivery order. -/
def runAll (reader : ContractReader) (events : List HandlerEvent) (s : Store) :
    Store :=
  events.foldl (fun acc e => runStep reader e acc) s

/-- "One of the three stake reads for this node address reverts." -/
def stakeReadFails (reader : ContractReader) (nodeId : String) : Prop :=
  reader.getNodeEffectiveRPLStake nodeId = .error () ∨
  reader.getNodeMinimumRPLStake nodeId = .error () ∨
  reader.getNodeMaximumRPLStake nodeId = .error ()

/-- The store-wide invariant of C6: every stored node has a non-negative
`withdrawableMinipools`. -/
def WithdrawableNonneg (s : Store) : Prop :=
  ∀ nodeId node, s.nodes nodeId = some node → 0 ≤ node.withdrawableMinipools

/-- Concrete fixture: a contract reader whose reads all succeed. -/
def wReaderOk : ContractReader :=
  { getNodeFee := .ok 7
    getNodeEffectiveRPLStake := fun _ => .ok 100
    getNodeMinimumRPLStake := fun _ => .ok 50
    getNodeMaximumRPLStake := fun _ => .ok 150 }

/-- Concrete fixture: the network-fee read reverts. -/
def wReaderFeeErr : ContractReader :=
  { getNodeFee := .error ()
    getNodeEffectiveRPLStake := fun _ => .ok 100
    getNodeMinimumRPLStake := fun _ => .ok 50
    getNodeMaximumRPLStake := fun _ => .ok 150 }

/-- Concrete fixture: the effective-stake read reverts. -/
def wReaderStakeErr : ContractReader :=
  { getNodeFee := .ok 7
    getNodeEffectiveRPLStake := fun _ => .error ()
    getNodeMinimumRPLStake := fun _ => .ok 50
    getNodeMaximumRPLStake := fun _ => .ok 150 }

/-- Concrete fixture: a node owning the single minipool `"m1"`. -/
def wNode : Node :=
  { id := "n1"
    minipoolIds := some ["m1"]
    totalFinalizedMinipools := 2
    withdrawableMinipools := 1
    effectiveRPLStaked := 0
    minimumEffectiveRPL := 0
    maximumEffectiveRPL := 0
    averageFeeForActiveMinipools := 10 }

/-- Concrete fixture: a node that owns no minipool yet. -/
def wNodeEmpty : Node :=
  { id := "n1"
    minipoolIds := some []
    totalFinalizedMinipools := 0
    withdrawableMinipools := 0
    effectiveRPLStaked := 0
    minimumEffectiveRPL := 0
    maximumEffectiveRPL := 0
    averageFeeForActiveMinipools := 0 }

/-- Concrete fixture: an active minipool owned by `"n1"`. -/
def wMinipool : Minipool :=
  { id := "m1"
    node := some "n1"
    fee := 10
    finalizedBlockTime := 0
    destroyedBlockTime := 0 }

/-- Concrete fixture: store holding `wNode` and `wMinipool`. -/
def wStore : Store :=
  { minipools := fun i => if i = "m1" then some wMinipool else none
    nodes := fun i => if i = "n1" then some wNode else none
    subscriptions := [] }

/-- Concrete fixture: store holding only the fresh node `wNodeEmpty`. -/
def wStoreFresh : Store :=
  { minipools := fun _ => none
    nodes := fun i => if i = "n1" then some wNodeEmpty else none
    subscriptions := [] }

/-- Concrete fixture: creation event for minipool `"m1"` under `"n1"`. -/
def wCreateEvent : MinipoolCreatedEvent :=
  { node := "n1", minipool := "m1" }

/-- Concrete fixture: creation event referencing the absent node `"nX"`. -/
def wOrphanCreateEvent : MinipoolCreatedEvent :=
  { node := "nX", minipool := "mX" }

/-- Concrete fixture: destruction event for `"m1"` at block time 99. -/
def wDestroyEvent : MinipoolDestroyedEvent :=
  { node := "n1", minipool := "m1", blockTimestamp := 99 }

/-- Concrete fixture: finalisation call from `"m1"` at block time 77. -/
def wCall : IncrementNodeFinalisedMinipoolCountCall :=
  { fromAddress := "m1", blockTimestamp := 77 }

@[simp]
lemma Store.setMinipool_minipools (s : Store) (m : Minipool) (i : String) :
    (s.setMinipool m).minipools i = if i = m.id then some m else s.minipools i :=
  rfl

@[simp]
lemma Store.setMinipool_nodes (s : Store) (m : Minipool) :
    (s.setMinipool m).nodes = s.nodes :=
  rfl

@[simp]
lemma Store.setNode_nodes (s : Store) (n : Node) (i : String) :
    (s.setNode n).nodes i = if i = n.id then some n else s.nodes i :=
  rfl

@[simp]
lemma Store.setNode_minipools (s : Store) (n : Node) :
    (s.setNode n).minipools = s.minipools :=
  rfl

@[simp]
lemma Store.subscribe_minipools (s : Store) (a : String) :
    (s.subscribe a).minipools = s.minipools :=
  rfl

@[simp]
lemma Store.subscribe_nodes (s : Store) (a : String) :
    (s.subscribe a).nodes = s.nodes :=
  rfl

lemma setEffectiveRPLStaked_ok_exists {reader : ContractReader}
    {node node' : Node} (h : setEffectiveRPLStaked reader node = .ok node') :
    ∃ e mn mx,
      reader.getNodeEffectiveRPLStake node.id = .ok e ∧
      reader.getNodeMinimumRPLStake node.id = .ok mn ∧
      reader.getNodeMaximumRPLStake node.id = .ok mx ∧
      node' = { node with
                  effectiveRPLStaked := e,
                  minimumEffectiveRPL := mn,
                  maximumEffectiveRPL := mx } := by
  unfold setEffectiveRPLStaked at h
  cases he : reader.getNodeEffectiveRPLStake node.id with
  | error e => rw [he] at h; cases h
  | ok e =>
    rw [he] at h
    cases hmn : reader.getNodeMinimumRPLStake node.id with
    | error e2 => rw [hmn] at h; cases h
    | ok mn =>
      rw [hmn] at h
      cases hmx : reader.getNodeMaximumRPLStake node.id with
      | error e3 => rw [hmx] at h; cases h
      | ok mx =>
        rw [hmx] at h
        cases h
        exact ⟨e, mn, mx, rfl, rfl, rfl, rfl⟩

lemma setEffectiveRPLStaked_ok_fields {reader : ContractReader}
    {node node' : Node} (h : setEffectiveRPLStaked reader node = .ok node') :
    node'.id = node.id ∧ node'.minipoolIds = node.minipoolIds ∧
    node'.totalFinalizedMinipools = node.totalFinalizedMinipools ∧
    node'.withdrawableMinipools = node.withdrawableMinipools ∧
    node'.averageFeeForActiveMinipools = node.averageFeeForActiveMinipools := by
  obtain ⟨e, mn, mx, -, -, -, rfl⟩ := setEffectiveRPLStaked_ok_exists h
  exact ⟨rfl, rfl, rfl, rfl, rfl⟩

lemma setEffectiveRPLStaked_error {reader : ContractReader} {node : Node}
    (h : stakeReadFails reader node.id) :
    setEffectiveRPLStaked reader node = .error () := by
  unfold setEffectiveRPLStaked
  rcases h with h | h | h
  · rw [h]
  · cases he : reader.getNodeEffectiveRPLStake node.id with
    | error e => cases e; rfl
    | ok e => rw [h]
  · cases he : reader.getNodeEffectiveRPLStake node.id with
    | error e => cases e; rfl
    | ok e =>
      cases hmn : reader.getNodeMinimumRPLStake node.id with
      | error e2 => cases e2; rfl
      | ok mn => rw [h]

@[simp]
lemma createMinipool_id (minipoolId nodeId : String) (fee : Int) :
    (createMinipool minipoolId nodeId fee).id = minipoolId :=
  rfl

lemma handleMinipoolCreated_ok_shape {reader : ContractReader}
    {event : MinipoolCreatedEvent} {s s' : Store} {node : Node}
    (hmp : s.minipools event.minipool = none)
    (hnode : s.nodes event.node = some node)
    (h : handleMinipoolCreated reader event s = .ok s') :
    ∃ fee node1,
      getNewMinipoolFee reader = .ok fee ∧
      setEffectiveRPLStaked reader
        { node with
          minipoolIds := some (appendMinipoolId node.minipoolIds event.minipool) }
        = .ok node1 ∧
      s' = ((s.setMinipool (createMinipool event.minipool node.id fee)).setNode
          { node1 with
            averageFeeForActiveMinipools :=
              getAverageFeeForActiveMinipools
                (s.setMinipool (createMinipool event.minipool node.id fee)).minipools
                (appendMinipoolId node.minipoolIds event.minipool) }).subscribe
          event.minipool := by
  unfold handleMinipoolCreated at h
  simp only [hmp, hnode, createMinipool_id] at h
  cases hf : getNewMinipoolFee reader with
  | error e => rw [hf] at h; cases h
  | ok fee =>
    simp only [hf] at h
    cases hse : setEffectiveRPLStaked reader
        { node with
          minipoolIds := some (appendMinipoolId node.minipoolIds event.minipool) }
        with
    | error e => rw [hse] at h; cases h
    | ok node1 =>
      simp only [hse, Except.ok.injEq] at h
      exact ⟨fee, node1, rfl, rfl, h.symm⟩

lemma handleMinipoolDestroyed_ok_shape {reader : ContractReader}
    {event : MinipoolDestroyedEvent} {s s' : Store}
    {minipool : Minipool} {node : Node}
    (hmp : s.minipools event.minipool = some minipool)
    (hnode : s.nodes event.node = some node)
    (h : handleMinipoolDestroyed reader event s = .ok s') :
    ∃ node1, setEffectiveRPLStaked reader node = .ok node1 ∧
      s' = (s.setMinipool
            { minipool with destroyedBlockTime := event.blockTimestamp }).setNode
        (match node.minipoolIds with
         | none => node1
         | some ids => { node1 with
             averageFeeForActiveMinipools :=
               getAverageFeeForActiveMinipools
                 (s.setMinipool
                   { minipool with
                       destroyedBlockTime := event.blockTimestamp }).minipools
                 ids }) := by
  unfold handleMinipoolDestroyed at h
  simp only [hmp, hnode] at h
  cases hse : setEffectiveRPLStaked reader node with
  | error e => rw [hse] at h; cases h
  | ok node1 =>
    simp only [hse, Except.ok.injEq] at h
    exact ⟨node1, rfl, h.symm⟩

lemma handleIncrement_ok_shape {reader : ContractReader}
    {call : IncrementNodeFinalisedMinipoolCountCall} {s s' : Store}
    {minipool : Minipool} {nodeId : String} {node : Node}
    (hmp : s.minipools call.fromAddress = some minipool)
    (hmnode : minipool.node = some nodeId)
    (hnode : s.nodes nodeId = some node)
    (h : handleIncrementNodeFinalisedMinipoolCount reader call s = .ok s') :
    ∃ node2, setEffectiveRPLStaked reader
        { node with
            totalFinalizedMinipools := node.totalFinalizedMinipools + 1,
            withdrawableMinipools :=
              if node.totalFinalizedMinipools + 1 - 1 < 0 then 0
              else node.totalFinalizedMinipools + 1 - 1 } = .ok node2 ∧
      s' = (s.setMinipool
            { minipool with finalizedBlockTime := call.blockTimestamp }).setNode
        (match node.minipoolIds with
         | none => node2
         | some ids => { node2 with
             averageFeeForActiveMinipools :=
               getAverageFeeForActiveMinipools
                 (s.setMinipool
                   { minipool with
                       finalizedBlockTime := call.blockTimestamp }).minipools
                 ids }) := by
  unfold handleIncrementNodeFinalisedMinipoolCount at h
  simp only [hmp, hmnode, hnode] at h
  cases hse : setEffectiveRPLStaked reader
      { node with
          totalFinalizedMinipools := node.totalFinalizedMinipools + 1,
          withdrawableMinipools :=
            if node.totalFinalizedMinipools + 1 - 1 < 0 then 0
            else node.totalFinalizedMinipools + 1 - 1 } with
  | error e => rw [hse] at h; cases h
  | ok node2 =>
    simp only [hse, Except.ok.injEq] at h
    refine ⟨node2, rfl, ?_⟩
    rw [hmnode]
    exact h.symm

lemma averageFeeLoop_eq (load : String → Option Minipool) (ids : List String)
    (totalFee totalActive : Int) :
    averageFeeLoop load ids totalFee totalActive =
      (totalFee + (specActiveFees load ids).sum,
       totalActive + ((specActiveFees load ids).length : Int)) := by
  induction ids generalizing totalFee totalActive with
  | nil => simp [averageFeeLoop, specActiveFees]
  | cons i rest ih =>
    simp only [averageFeeLoop, specActiveFees, List.filterMap_cons]
    cases hm : load i with
    | none =>
      simp only [specActiveFeeOf, hm]
      simpa [specActiveFees] using ih totalFee totalActive
    | some m =>
      simp only [specActiveFeeOf, hm]
      by_cases hact : m.finalizedBlockTime = 0 ∧ m.destroyedBlockTime = 0
      · have hcond : ¬ (m.finalizedBlockTime ≠ 0 ∨ m.destroyedBlockTime ≠ 0) := by
          push_neg
          exact hact
        simp only [if_pos hact, if_neg hcond]
        rw [ih (totalFee + m.fee) (totalActive + 1)]
        simp [specActiveFees]
        constructor
        · ring
        · ring
      · have hcond : m.finalizedBlockTime ≠ 0 ∨ m.destroyedBlockTime ≠ 0 := by
          rcases Decidable.em (m.finalizedBlockTime = 0) with h0 | h0
          · right
            intro h1
            exact hact ⟨h0, h1⟩
          · left
            exact h0
        simp only [if_neg hact, if_pos hcond]
        simpa [specActiveFees] using ih totalFee totalActive

/-- C1: `getAverageFeeForActiveMinipools` returns the truncating quotient
(sum of fees) / (count) over exactly the ids whose minipool loads and has
`finalizedBlockTime = 0` and `destroyedBlockTime = 0`, whenever that count
and that sum are positive, and `0` in every other case (the spec-side
restatement `specAverageFeeForActiveMinipools` is that description
verbatim). -/
theorem getAverageFeeForActiveMinipools_eq_spec
    (load : String → Option Minipool) (minipoolIds : List String) :
    getAverageFeeForActiveMinipools load minipoolIds =
      specAverageFeeForActiveMinipools load minipoolIds := by
  unfold getAverageFeeForActiveMinipools specAverageFeeForActiveMinipools
  by_cases hlen : minipoolIds.length = 0
  · have : minipoolIds = [] := List.length_eq_zero.mp hlen
    subst this
    simp [specActiveFees]
  · simp only [if_neg hlen, averageFeeLoop_eq, Int.zero_add, zero_add]
    have hcnt : (0 : Int) < ((specActiveFees load minipoolIds).length : Int) ↔
        0 < (specActiveFees load minipoolIds).length := by
      exact_mod_cast Iff.rfl
    by_cases hc : 0 < (specActiveFees load minipoolIds).length ∧
        0 < (specActiveFees load minipoolIds).sum
    · rw [if_pos ⟨hcnt.mpr hc.1, hc.2⟩, if_pos hc]
    · rw [if_neg (fun h => hc ⟨hcnt.mp h.1, h.2⟩), if_neg hc]


/-- C7: a creation event whose referenced node does not exist in storage
makes no mutation at all — the handler returns the input store unchanged
(no minipool created, no node touched, no subscription registered) and
raises no error. -/
theorem handleMinipoolCreated_missingNode_noop
    (reader : ContractReader) (event : MinipoolCreatedEvent) (s : Store)
    (hnode : s.nodes event.node = none) :
    handleMinipoolCreated reader event s = .ok s := by
  unfold handleMinipoolCreated
  cases hmp : s.minipools event.minipool with
  | some m => rfl
  | none => rw [hnode]

/-- Witness for C7 at a concrete store and event. -/
theorem handleMinipoolCreated_missingNode_noop_witness :
    handleMinipoolCreated wReaderOk wOrphanCreateEvent wStore = .ok wStore :=
  handleMinipoolCreated_missingNode_noop wReaderOk wOrphanCreateEvent wStore
    (by decide)

/-- C9: `setEffectiveRPLStaked` unconditionally overwrites the node's
`effectiveRPLStaked`, `minimumEffectiveRPL` and `maximumEffectiveRPL` with
the three values the stake-read collaborator currently returns for the
node's address (first conjunct, for an arbitrary node, so independent of
the prior field values), and after a second refresh the three fields equal
the latest read alone, not any accumulation of the first (second
conjunct). -/
theorem setEffectiveRPLStaked_overwrites :
    (∀ (reader : ContractReader) (node : Node) (e mn mx : Int),
      reader.getNodeEffectiveRPLStake node.id = .ok e →
      reader.getNodeMinimumRPLStake node.id = .ok mn →
      reader.getNodeMaximumRPLStake node.id = .ok mx →
      setEffectiveRPLStaked reader node =
        .ok { node with
                effectiveRPLStaked := e,
                minimumEffectiveRPL := mn,
                maximumEffectiveRPL := mx }) ∧
    (∀ (r1 r2 : ContractReader) (node node1 : Node) (e2 mn2 mx2 : Int),
      setEffectiveRPLStaked r1 node = .ok node1 →
      r2.getNodeEffectiveRPLStake node.id = .ok e2 →
      r2.getNodeMinimumRPLStake node.id = .ok mn2 →
      r2.getNodeMaximumRPLStake node.id = .ok mx2 →
      setEffectiveRPLStaked r2 node1 =
        .ok { node with
                effectiveRPLStaked := e2,
                minimumEffectiveRPL := mn2,
                maximumEffectiveRPL := mx2 }) := by
  constructor
  · intro reader node e mn mx he hmn hmx
    unfold setEffectiveRPLStaked
    rw [he, hmn, hmx]
  · intro r1 r2 node node1 e2 mn2 mx2 h1 he hmn hmx
    obtain ⟨e1, mn1, mx1, -, -, -, rfl⟩ := setEffectiveRPLStaked_ok_exists h1
    unfold setEffectiveRPLStaked
    simp only [he, hmn, hmx]

/-- Witness for C9 at a concrete reader and node. -/
theorem setEffectiveRPLStaked_overwrites_witness :
    setEffectiveRPLStaked wReaderOk wNode =
      .ok { wNode with
              effectiveRPLStaked := 100,
              minimumEffectiveRPL := 50,
              maximumEffectiveRPL := 150 } ∧
    setEffectiveRPLStaked wReaderOk
        { wNode with
            effectiveRPLStaked := 100,
            minimumEffectiveRPL := 50,
            maximumEffectiveRPL := 150 } =
      .ok { wNode with
              effectiveRPLStaked := 100,
              minimumEffectiveRPL := 50,
              maximumEffectiveRPL := 150 } :=
  ⟨setEffectiveRPLStaked_overwrites.1 wReaderOk wNode 100 50 150 rfl rfl rfl,
   setEffectiveRPLStaked_overwrites.2 wReaderOk wReaderOk wNode
     { wNode with
         effectiveRPLStaked := 100,
         minimumEffectiveRPL := 50,
         maximumEffectiveRPL := 150 } 100 50 150
     (setEffectiveRPLStaked_overwrites.1 wReaderOk wNode 100 50 150 rfl rfl rfl)
     rfl rfl rfl⟩

/-- C2: when a reached external contract read fails, the handler aborts
with the error propagated and produces no store at all (so no entity is
saved with a partial or default value): the creation handler when the
network-fee read reverts (first conjunct) or when a stake read reverts
after a successful fee read (second conjunct), the destruction handler
(third conjunct) and the finalisation handler (fourth conjunct) when a
stake read reverts. -/
theorem contractReadFailure_aborts_handler :
    (∀ (reader : ContractReader) (event : MinipoolCreatedEvent) (s : Store)
        (node : Node),
      s.minipools event.minipool = none →
      s.nodes event.node = some node →
      reader.getNodeFee = .error () →
      handleMinipoolCreated reader event s = .error ()) ∧
    (∀ (reader : ContractReader) (event : MinipoolCreatedEvent) (s : Store)
        (node : Node) (fee : Int),
      s.minipools event.minipool = none →
      s.nodes event.node = some node →
      reader.getNodeFee = .ok fee →
      stakeReadFails reader node.id →
      handleMinipoolCreated reader event s = .error ()) ∧
    (∀ (reader : ContractReader) (event : MinipoolDestroyedEvent) (s : Store)
        (minipool : Minipool) (node : Node),
      s.minipools event.minipool = some minipool →
      s.nodes event.node = some node →
      stakeReadFails reader node.id →
      handleMinipoolDestroyed reader event s = .error ()) ∧
    (∀ (reader : ContractReader)
        (call : IncrementNodeFinalisedMinipoolCountCall) (s : Store)
        (minipool : Minipool) (nodeId : String) (node : Node),
      s.minipools call.fromAddress = some minipool →
      minipool.node = some nodeId →
      s.nodes nodeId = some node →
      stakeReadFails reader node.id →
      handleIncrementNodeFinalisedMinipoolCount reader call s = .error ()) := by
  refine ⟨?_, ?_, ?_, ?_⟩
  · intro reader event s node hmp hnode hfee
    unfold handleMinipoolCreated
    simp only [hmp, hnode, getNewMinipoolFee, hfee]
  · intro reader event s node fee hmp hnode hfee hfail
    unfold handleMinipoolCreated
    simp only [hmp, hnode, getNewMinipoolFee, hfee]
    rw [setEffectiveRPLStaked_error
      (show stakeReadFails reader
        (Node.id { node with
          minipoolIds :=
            some (appendMinipoolId node.minipoolIds
              (createMinipool event.minipool node.id fee).id) }) from hfail)]
  · intro reader event s minipool node hmp hnode hfail
    unfold handleMinipoolDestroyed
    simp only [hmp, hnode, setEffectiveRPLStaked_error hfail]
  · intro reader call s minipool nodeId node hmp hmn hnode hfail
    unfold handleIncrementNodeFinalisedMinipoolCount
    simp only [hmp, hmn, hnode]
    rw [setEffectiveRPLStaked_error
      (show stakeReadFails reader
        (Node.id { node with
          totalFinalizedMinipools := node.totalFinalizedMinipools + 1,
          withdrawableMinipools :=
            if node.totalFinalizedMinipools + 1 - 1 < 0 then 0
            else node.totalFinalizedMinipools + 1 - 1 }) from hfail)]

/-- Witness for C2: each of the four failure scenarios at concrete
inputs. -/
theorem contractReadFailure_aborts_handler_witness :
    handleMinipoolCreated wReaderFeeErr wCreateEvent wStoreFresh = .error () ∧
    handleMinipoolCreated wReaderStakeErr wCreateEvent wStoreFresh = .error () ∧
    handleMinipoolDestroyed wReaderStakeErr wDestroyEvent wStore = .error () ∧
    handleIncrementNodeFinalisedMinipoolCount wReaderStakeErr wCall wStore =
      .error () :=
  ⟨contractReadFailure_aborts_handler.1 wReaderFeeErr wCreateEvent wStoreFresh
      wNodeEmpty (by decide) (by decide) rfl,
   contractReadFailure_aborts_handler.2.1 wReaderStakeErr wCreateEvent
      wStoreFresh wNodeEmpty 7 (by decide) (by decide) rfl (Or.inl rfl),
   contractReadFailure_aborts_handler.2.2.1 wReaderStakeErr wDestroyEvent
      wStore wMinipool wNode (by decide) (by decide) (Or.inl rfl),
   contractReadFailure_aborts_handler.2.2.2 wReaderStakeErr wCall wStore
      wMinipool "n1" wNode (by decide) rfl (by decide) (Or.inl rfl)⟩

lemma ite_neg_eq_max (a : Int) : (if a < 0 then 0 else a) = max a 0 := by
  rcases lt_or_le a 0 with h | h
  · rw [if_pos h, max_eq_right h.le]
  · rw [if_neg (not_lt.mpr h), max_eq_left h]

/-- C5: a successful finalisation call on an existing minipool with a
recorded node increments the node's `totalFinalizedMinipools` by exactly
one and stores `withdrawableMinipools` as the new total minus one, clamped
below at zero. -/
theorem handleIncrement_counter_update
    (reader : ContractReader) (call : IncrementNodeFinalisedMinipoolCountCall)
    (s s' : Store) (minipool : Minipool) (nodeId : String) (node : Node)
    (hmp : s.minipools call.fromAddress = some minipool)
    (hmn : minipool.node = some nodeId)
    (hnode : s.nodes nodeId = some node)
    (hnid : node.id = nodeId)
    (h : handleIncrementNodeFinalisedMinipoolCount reader call s = .ok s') :
    ∃ node', s'.nodes nodeId = some node' ∧
      node'.totalFinalizedMinipools = node.totalFinalizedMinipools + 1 ∧
      node'.withdrawableMinipools = max (node'.totalFinalizedMinipools - 1) 0 := by
  obtain ⟨node2, hse, rfl⟩ := handleIncrement_ok_shape hmp hmn hnode h
  obtain ⟨hid, hids, htot, hw, -⟩ := setEffectiveRPLStaked_ok_fields hse
  simp only at hid htot hw
  cases hmi : node.minipoolIds with
  | none =>
    refine ⟨node2, ?_, ?_, ?_⟩
    · simp [hmi, hid, hnid]
    · exact htot
    · rw [hw, htot, ite_neg_eq_max]
  | some ids =>
    refine ⟨{ node2 with
        averageFeeForActiveMinipools :=
          getAverageFeeForActiveMinipools
            (s.setMinipool
              { minipool with
                  finalizedBlockTime := call.blockTimestamp }).minipools
            ids }, ?_, ?_, ?_⟩
    · simp [hmi, hid, hnid]
    · exact htot
    · simp only [htot, hw, ite_neg_eq_max]

/-- Witness for C5 at a concrete store, call and reader. -/
theorem handleIncrement_counter_update_witness :
    ∃ node',
      (runStep wReaderOk (.finalised wCall) wStore).nodes "n1" = some node' ∧
      node'.totalFinalizedMinipools = wNode.totalFinalizedMinipools + 1 ∧
      node'.withdrawableMinipools = max (node'.totalFinalizedMinipools - 1) 0 :=
  handleIncrement_counter_update wReaderOk wCall wStore
    (runStep wReaderOk (.finalised wCall) wStore) wMinipool "n1" wNode
    (by decide) rfl (by decide) rfl rfl

/-- C10: under the precondition that the node's `totalFinalizedMinipools`
is non-negative on entry, the finalisation handler's zero-clamp branch is
unreachable — the increment precedes the subtraction, so the tested value
`total + 1 - 1` is not negative and `withdrawableMinipools` is assigned
exactly the unclamped difference. -/
theorem handleIncrement_clamp_unreachable
    (reader : ContractReader) (call : IncrementNodeFinalisedMinipoolCountCall)
    (s s' : Store) (minipool : Minipool) (nodeId : String) (node : Node)
    (hmp : s.minipools call.fromAddress = some minipool)
    (hmn : minipool.node = some nodeId)
    (hnode : s.nodes nodeId = some node)
    (hnid : node.id = nodeId)
    (hpos : 0 ≤ node.totalFinalizedMinipools)
    (h : handleIncrementNodeFinalisedMinipoolCount reader call s = .ok s') :
    ¬ (node.totalFinalizedMinipools + 1 - 1 < 0) ∧
    ∃ node', s'.nodes nodeId = some node' ∧
      node'.withdrawableMinipools = node.totalFinalizedMinipools + 1 - 1 := by
  have hnneg : ¬ (node.totalFinalizedMinipools + 1 - 1 < 0) := by omega
  obtain ⟨node2, hse, rfl⟩ := handleIncrement_ok_shape hmp hmn hnode h
  obtain ⟨hid, -, -, hw, -⟩ := setEffectiveRPLStaked_ok_fields hse
  simp only at hid hw
  refine ⟨hnneg, ?_⟩
  rw [if_neg hnneg] at hw
  cases hmi : node.minipoolIds with
  | none => exact ⟨node2, by simp [hmi, hid, hnid], hw⟩
  | some ids =>
    exact ⟨{ node2 with
        averageFeeForActiveMinipools :=
          getAverageFeeForActiveMinipools
            (s.setMinipool
              { minipool with
                  finalizedBlockTime := call.blockTimestamp }).minipools
            ids }, by simp [hmi, hid, hnid], hw⟩

/-- Witness for C10 at a concrete store, call and reader. -/
theorem handleIncrement_clamp_unreachable_witness :
    ¬ (wNode.totalFinalizedMinipools + 1 - 1 < 0) ∧
    ∃ node',
      (runStep wReaderOk (.finalised wCall) wStore).nodes "n1" = some node' ∧
      node'.withdrawableMinipools = wNode.totalFinalizedMinipools + 1 - 1 :=
  handleIncrement_clamp_unreachable wReaderOk wCall wStore
    (runStep wReaderOk (.finalised wCall) wStore) wMinipool "n1" wNode
    (by decide) rfl (by decide) rfl (by decide) rfl

/-- C8: the destruction handler writes only `destroyedBlockTime` on the
touched minipool and the finalisation handler writes only
`finalizedBlockTime` on it — in particular `fee` and the owning-node link
are unchanged (the stored minipool is exactly the old record with the one
block-time field replaced) and every other minipool entry is untouched. -/
theorem destruction_finalisation_frame :
    (∀ (reader : ContractReader) (event : MinipoolDestroyedEvent)
        (s s' : Store) (minipool : Minipool) (node : Node),
      s.minipools event.minipool = some minipool →
      minipool.id = event.minipool →
      s.nodes event.node = some node →
      handleMinipoolDestroyed reader event s = .ok s' →
      s'.minipools event.minipool =
        some { minipool with destroyedBlockTime := event.blockTimestamp } ∧
      ∀ a, a ≠ event.minipool → s'.minipools a = s.minipools a) ∧
    (∀ (reader : ContractReader)
        (call : IncrementNodeFinalisedMinipoolCountCall)
        (s s' : Store) (minipool : Minipool) (nodeId : String) (node : Node),
      s.minipools call.fromAddress = some minipool →
      minipool.id = call.fromAddress →
      minipool.node = some nodeId →
      s.nodes nodeId = some node →
      handleIncrementNodeFinalisedMinipoolCount reader call s = .ok s' →
      s'.minipools call.fromAddress =
        some { minipool with finalizedBlockTime := call.blockTimestamp } ∧
      ∀ a, a ≠ call.fromAddress → s'.minipools a = s.minipools a) := by
  constructor
  · intro reader event s s' minipool node hmp hmid hnode h
    obtain ⟨node1, -, rfl⟩ := handleMinipoolDestroyed_ok_shape hmp hnode h
    constructor
    · simp [hmid]
    · intro a ha
      simp [hmid, ha]
  · intro reader call s s' minipool nodeId node hmp hmid hmn hnode h
    obtain ⟨node2, -, rfl⟩ := handleIncrement_ok_shape hmp hmn hnode h
    constructor
    · simp [hmid]
    · intro a ha
      simp [hmid, ha]

/-- Witness for C8: both frames at concrete inputs. -/
theorem destruction_finalisation_frame_witness :
    ((runStep wReaderOk (.destroyed wDestroyEvent) wStore).minipools "m1" =
        some { wMinipool with destroyedBlockTime := 99 } ∧
      ∀ a, a ≠ "m1" →
        (runStep wReaderOk (.destroyed wDestroyEvent) wStore).minipools a =
          wStore.minipools a) ∧
    ((runStep wReaderOk (.finalised wCall) wStore).minipools "m1" =
        some { wMinipool with finalizedBlockTime := 77 } ∧
      ∀ a, a ≠ "m1" →
        (runStep wReaderOk (.finalised wCall) wStore).minipools a =
          wStore.minipools a) :=
  ⟨destruction_finalisation_frame.1 wReaderOk wDestroyEvent wStore
      (runStep wReaderOk (.destroyed wDestroyEvent) wStore) wMinipool wNode
      (by decide) rfl (by decide) rfl,
   destruction_finalisation_frame.2 wReaderOk wCall wStore
      (runStep wReaderOk (.finalised wCall) wStore) wMinipool "n1" wNode
      (by decide) rfl rfl (by decide) rfl⟩

/-- C4: for a destruction event whose minipool and node both exist, the
handler persists the minipool with `destroyedBlockTime` set to the event's
block timestamp before recomputing, so the stored node average equals
`getAverageFeeForActiveMinipools` evaluated on the post-destruction store
— in which the destroyed minipool is no longer active and contributes no
fee (`specActiveFeeOf` is `none` for it). -/
theorem handleMinipoolDestroyed_average_postDestruction
    (reader : ContractReader) (event : MinipoolDestroyedEvent)
    (s s' : Store) (minipool : Minipool) (node : Node) (ids : List String)
    (hmp : s.minipools event.minipool = some minipool)
    (hmid : minipool.id = event.minipool)
    (hnode : s.nodes event.node = some node)
    (hnid : node.id = event.node)
    (hids : node.minipoolIds = some ids)
    (hts : event.blockTimestamp ≠ 0)
    (h : handleMinipoolDestroyed reader event s = .ok s') :
    s'.minipools event.minipool =
      some { minipool with destroyedBlockTime := event.blockTimestamp } ∧
    specActiveFeeOf s'.minipools event.minipool = none ∧
    ∃ node', s'.nodes event.node = some node' ∧
      node'.averageFeeForActiveMinipools =
        getAverageFeeForActiveMinipools s'.minipools ids := by
  obtain ⟨node1, hse, rfl⟩ := handleMinipoolDestroyed_ok_shape hmp hnode h
  obtain ⟨hid, -, -, -, -⟩ := setEffectiveRPLStaked_ok_fields hse
  have hlookup : ((s.setMinipool
      { minipool with destroyedBlockTime := event.blockTimestamp }).setNode
        (match node.minipoolIds with
         | none => node1
         | some ids => { node1 with
             averageFeeForActiveMinipools :=
               getAverageFeeForActiveMinipools
                 (s.setMinipool
                   { minipool with
                       destroyedBlockTime := event.blockTimestamp }).minipools
                 ids })).minipools event.minipool =
      some { minipool with destroyedBlockTime := event.blockTimestamp } := by
    simp [hmid]
  refine ⟨hlookup, ?_, ?_⟩
  · unfold specActiveFeeOf
    rw [hlookup]
    simp [hts]
  · refine ⟨{ node1 with
        averageFeeForActiveMinipools :=
          getAverageFeeForActiveMinipools
            (s.setMinipool
              { minipool with
                  destroyedBlockTime := event.blockTimestamp }).minipools
            ids }, ?_, rfl⟩
    simp [hids, hid, hnid]

/-- Witness for C4 at a concrete store and event. -/
theorem handleMinipoolDestroyed_average_postDestruction_witness :
    (runStep wReaderOk (.destroyed wDestroyEvent) wStore).minipools "m1" =
      some { wMinipool with destroyedBlockTime := 99 } ∧
    specActiveFeeOf
      (runStep wReaderOk (.destroyed wDestroyEvent) wStore).minipools "m1" =
      none ∧
    ∃ node',
      (runStep wReaderOk (.destroyed wDestroyEvent) wStore).nodes "n1" =
        some node' ∧
      node'.averageFeeForActiveMinipools =
        getAverageFeeForActiveMinipools
          (runStep wReaderOk (.destroyed wDestroyEvent) wStore).minipools
          ["m1"] :=
  handleMinipoolDestroyed_average_postDestruction wReaderOk wDestroyEvent
    wStore (runStep wReaderOk (.destroyed wDestroyEvent) wStore) wMinipool
    wNode ["m1"] (by decide) rfl (by decide) rfl rfl (by decide) rfl

lemma appendMinipoolId_count (ids : Option (List String)) (a : String)
    (hfresh : ∀ l, ids = some l → a ∉ l) :
    (appendMinipoolId ids a).count a = 1 := by
  cases ids with
  | none => simp [appendMinipoolId]
  | some l =>
    have hnot : a ∉ l := hfresh l rfl
    simp [appendMinipoolId, hnot, List.count_append,
      List.count_eq_zero.mpr hnot]

/-- C3: re-delivering a creation event once it has succeeded is a no-op —
the second delivery returns the store unchanged, there is still exactly
one minipool stored at the address, and the owning node's `minipoolIds`
contains the id exactly once. -/
theorem handleMinipoolCreated_idempotent
    (reader : ContractReader) (event : MinipoolCreatedEvent)
    (s s1 : Store) (node : Node)
    (hmp : s.minipools event.minipool = none)
    (hnode : s.nodes event.node = some node)
    (hnid : node.id = event.node)
    (hfresh : ∀ ids, node.minipoolIds = some ids → event.minipool ∉ ids)
    (h : handleMinipoolCreated reader event s = .ok s1) :
    handleMinipoolCreated reader event s1 = .ok s1 ∧
    (∃ m, s1.minipools event.minipool = some m) ∧
    ∃ node' ids', s1.nodes event.node = some node' ∧
      node'.minipoolIds = some ids' ∧ ids'.count event.minipool = 1 := by
  obtain ⟨fee, node1, hf, hse, rfl⟩ := handleMinipoolCreated_ok_shape hmp hnode h
  obtain ⟨hid, hids, -, -, -⟩ := setEffectiveRPLStaked_ok_fields hse
  simp only at hid hids
  have hlookup : (((s.setMinipool
      (createMinipool event.minipool node.id fee)).setNode
        { node1 with
          averageFeeForActiveMinipools :=
            getAverageFeeForActiveMinipools
              (s.setMinipool
                (createMinipool event.minipool node.id fee)).minipools
              (appendMinipoolId node.minipoolIds event.minipool) }).subscribe
        event.minipool).minipools event.minipool =
      some (createMinipool event.minipool node.id fee) := by
    simp
  refine ⟨?_, ⟨_, hlookup⟩, ?_⟩
  · unfold handleMinipoolCreated
    rw [hlookup]
  · refine ⟨{ node1 with
        averageFeeForActiveMinipools :=
          getAverageFeeForActiveMinipools
            (s.setMinipool
              (createMinipool event.minipool node.id fee)).minipools
            (appendMinipoolId node.minipoolIds event.minipool) },
      appendMinipoolId node.minipoolIds event.minipool, ?_, ?_, ?_⟩
    · simp [hid, hnid]
    · exact hids
    · exact appendMinipoolId_count node.minipoolIds event.minipool hfresh

/-- Witness for C3 at a concrete store and event: the store after the
first delivery. -/
theorem handleMinipoolCreated_idempotent_witness :
    handleMinipoolCreated wReaderOk wCreateEvent
        (runStep wReaderOk (.created wCreateEvent) wStoreFresh) =
      .ok (runStep wReaderOk (.created wCreateEvent) wStoreFresh) ∧
    (∃ m, (runStep wReaderOk (.created wCreateEvent) wStoreFresh).minipools
        "m1" = some m) ∧
    ∃ node' ids',
      (runStep wReaderOk (.created wCreateEvent) wStoreFresh).nodes "n1" =
        some node' ∧
      node'.minipoolIds = some ids' ∧ ids'.count "m1" = 1 :=
  handleMinipoolCreated_idempotent wReaderOk wCreateEvent wStoreFresh
    (runStep wReaderOk (.created wCreateEvent) wStoreFresh) wNodeEmpty
    (by decide) (by decide) rfl
    (fun ids hids => by
      simp only [wNodeEmpty] at hids
      cases hids
      simp) rfl

lemma handleMinipoolCreated_preserves_nonneg {reader : ContractReader}
    {event : MinipoolCreatedEvent} {s s' : Store}
    (hw : WithdrawableNonneg s)
    (h : handleMinipoolCreated reader event s = .ok s') :
    WithdrawableNonneg s' := by
  cases hmp : s.minipools event.minipool with
  | some m =>
    unfold handleMinipoolCreated at h
    simp only [hmp, Except.ok.injEq] at h
    exact h ▸ hw
  | none =>
    cases hnode : s.nodes event.node with
    | none =>
      unfold handleMinipoolCreated at h
      simp only [hmp, hnode, Except.ok.injEq] at h
      exact h ▸ hw
    | some node =>
      obtain ⟨fee, node1, -, hse, rfl⟩ :=
        handleMinipoolCreated_ok_shape hmp hnode h
      obtain ⟨-, -, -, hwd, -⟩ := setEffectiveRPLStaked_ok_fields hse
      simp only at hwd
      intro nid n hn
      simp only [Store.subscribe_nodes, Store.setNode_nodes,
        Store.setMinipool_nodes] at hn
      split at hn
      · simp only [Option.some.injEq] at hn
        subst hn
        show 0 ≤ node1.withdrawableMinipools
        rw [hwd]
        exact hw _ _ hnode
      · exact hw _ _ hn

lemma handleMinipoolDestroyed_preserves_nonneg {reader : ContractReader}
    {event : MinipoolDestroyedEvent} {s s' : Store}
    (hw : WithdrawableNonneg s)
    (h : handleMinipoolDestroyed reader event s = .ok s') :
    WithdrawableNonneg s' := by
  cases hmp : s.minipools event.minipool with
  | none =>
    unfold handleMinipoolDestroyed at h
    simp only [hmp, Except.ok.injEq] at h
    exact h ▸ hw
  | some minipool =>
    cases hnode : s.nodes event.node with
    | none =>
      unfold handleMinipoolDestroyed at h
      simp only [hmp, hnode, Except.ok.injEq] at h
      exact h ▸ hw
    | some node =>
      obtain ⟨node1, hse, rfl⟩ := handleMinipoolDestroyed_ok_shape hmp hnode h
      obtain ⟨-, -, -, hwd, -⟩ := setEffectiveRPLStaked_ok_fields hse
      intro nid n hn
      cases hmi : node.minipoolIds with
      | none =>
        simp only [hmi, Store.setNode_nodes, Store.setMinipool_nodes] at hn
        split at hn
        · simp only [Option.some.injEq] at hn
          subst hn
          rw [hwd]
          exact hw _ _ hnode
        · exact hw _ _ hn
      | some ids =>
        simp only [hmi, Store.setNode_nodes, Store.setMinipool_nodes] at hn
        split at hn
        · simp only [Option.some.injEq] at hn
          subst hn
          show 0 ≤ node1.withdrawableMinipools
          rw [hwd]
          exact hw _ _ hnode
        · exact hw _ _ hn

lemma handleIncrement_preserves_nonneg {reader : ContractReader}
    {call : IncrementNodeFinalisedMinipoolCountCall} {s s' : Store}
    (hw : WithdrawableNonneg s)
    (h : handleIncrementNodeFinalisedMinipoolCount reader call s = .ok s') :
    WithdrawableNonneg s' := by
  cases hmp : s.minipools call.fromAddress with
  | none =>
    unfold handleIncrementNodeFinalisedMinipoolCount at h
    simp only [hmp, Except.ok.injEq] at h
    exact h ▸ hw
  | some minipool =>
    cases hmn : minipool.node with
    | none =>
      unfold handleIncrementNodeFinalisedMinipoolCount at h
      simp only [hmp, hmn, Except.ok.injEq] at h
      exact h ▸ hw
    | some nodeId =>
      cases hnode : s.nodes nodeId with
      | none =>
        unfold handleIncrementNodeFinalisedMinipoolCount at h
        simp only [hmp, hmn, hnode, Except.ok.injEq] at h
        exact h ▸ hw
      | some node =>
        obtain ⟨node2, hse, rfl⟩ := handleIncrement_ok_shape hmp hmn hnode h
        obtain ⟨-, -, -, hwd, -⟩ := setEffectiveRPLStaked_ok_fields hse
        simp only at hwd
        intro nid n hn
        cases hmi : node.minipoolIds with
        | none =>
          simp only [hmi, Store.setNode_nodes, Store.setMinipool_nodes] at hn
          split at hn
          · simp only [Option.some.injEq] at hn
            subst hn
            rw [hwd]
            split <;> omega
          · exact hw _ _ hn
        | some ids =>
          simp only [hmi, Store.setNode_nodes, Store.setMinipool_nodes] at hn
          split at hn
          · simp only [Option.some.injEq] at hn
            subst hn
            show 0 ≤ node2.withdrawableMinipools
            rw [hwd]
            split <;> omega
          · exact hw _ _ hn

lemma runStep_preserves_nonneg (reader : ContractReader) (e : HandlerEvent)
    (s : Store) (hw : WithdrawableNonneg s) :
    WithdrawableNonneg (runStep reader e s) := by
  cases e with
  | created event =>
    unfold runStep runHandler
    cases hr : handleMinipoolCreated reader event s with
    | ok s1 =>
      simp only [hr]
      exact handleMinipoolCreated_preserves_nonneg hw hr
    | error e => simp only [hr]; exact hw
  | destroyed event =>
    unfold runStep runHandler
    cases hr : handleMinipoolDestroyed reader event s with
    | ok s1 =>
      simp only [hr]
      exact handleMinipoolDestroyed_preserves_nonneg hw hr
    | error e => simp only [hr]; exact hw
  | finalised call =>
    unfold runStep runHandler
    cases hr : handleIncrementNodeFinalisedMinipoolCount reader call s with
    | ok s1 =>
      simp only [hr]
      exact handleIncrement_preserves_nonneg hw hr
    | error e => simp only [hr]; exact hw

/-- C6: if every stored node starts with a non-negative
`withdrawableMinipools`, then after any sequence of handler invocations,
in any order, every stored node's `withdrawableMinipools` is still
non-negative. -/
theorem withdrawableMinipools_never_negative
    (reader : ContractReader) (events : List HandlerEvent) (s : Store)
    (hw : WithdrawableNonneg s) :
    WithdrawableNonneg (runAll reader events s) := by
  induction events generalizing s with
  | nil => exact hw
  | cons e rest ih =>
    have hstep : runAll reader (e :: rest) s =
        runAll reader rest (runStep reader e s) := rfl
    rw [hstep]
    exact ih _ (runStep_preserves_nonneg reader e s hw)

/-- Witness for C6: a concrete three-event run from a concrete store. -/
theorem withdrawableMinipools_never_negative_witness :
    WithdrawableNonneg (runAll wReaderOk
      [.created wCreateEvent, .finalised wCall, .destroyed wDestroyEvent]
      wStoreFresh) :=
  withdrawableMinipools_never_negative wReaderOk
    [.created wCreateEvent, .finalised wCall, .destroyed wDestroyEvent]
    wStoreFresh
    (by
      intro nid n hn
      simp only [wStoreFresh] at hn
      split at hn
      · simp only [Option.some.injEq] at hn
        subst hn
        decide
      · simp at hn)
